/-
  Verification of the SPORTident card-reader core (ngz).

  Shallow embedding of the TypeScript sources:
    * src/crc.ts                        — 16-bit SPORTident CRC
    * src/si-protocol/SiMessage.ts      — frame constants and validity
    * src/si-protocol/SiDataFrame.ts    — time normalisation and the Card-5 decoder
    * src/si-protocol/SiDriver.ts       — serial-byte accumulator, startup config check
    * src/course-validator/validator.ts — inline and score-O course validation

  Bytes are modelled as `Nat` (JavaScript `Buffer` entries are 0..255; reading
  out of bounds yields `undefined`, which every bitwise operator coerces to 0,
  so out-of-range reads are modelled with `List.getD _ 0`).  Timestamps are
  `Int` (the sentinel `NO_TIME` is -1).  All 16-bit arithmetic is done in `Nat`
  with explicit `&&& 0xffff` masking, exactly where the source masks.
-/
import Mathlib

set_option maxHeartbeats 1000000
set_option maxRecDepth 100000

-- ─── Shared constants (SiMessage.ts / SiDataFrame.ts) ───────────────────────

def STX : Nat := 0x02
def ETX : Nat := 0x03

def NO_TIME : Int := -1
def NO_SI_TIME : Int := 1000 * 0xeeee
def TWELVE_HOURS : Int := 1000 * 12 * 3600
def ONE_DAY : Int := 2 * TWELVE_HOURS

-- ─── CRC engine (src/crc.ts) ────────────────────────────────────────────────

def POLY : Nat := 0x8005
def BITF : Nat := 0x8000

/-- One pass of the inner 16-step bit loop of `crc`: the body of
`for (j = 0; j < 16; j++)` acting on the pair `(tmp, val)`. -/
def crcBitStep (tv : Nat × Nat) : Nat × Nat :=
  let tmp := tv.1
  let val := tv.2
  let tmp1 :=
    if tmp &&& BITF ≠ 0 then
      let a := (tmp <<< 1) &&& 0xffff
      let b := if val &&& BITF ≠ 0 then (a + 1) &&& 0xffff else a
      (b ^^^ POLY) &&& 0xffff
    else
      let a := (tmp <<< 1) &&& 0xffff
      if val &&& BITF ≠ 0 then (a + 1) &&& 0xffff else a
  (tmp1, (val <<< 1) &&& 0xffff)

/-- The 16 bit-steps applied to accumulator `tmp` with input group `val`. -/
def crc16steps (tmp val : Nat) : Nat :=
  (crcBitStep^[16] (tmp, val)).1

/-- The outer loop of `crc`: `i` counts down from `⌊count/2⌋` to 1, `ptr` is
the read pointer (starts at 2).  For `i > 1` the next big-endian 16-bit group
is consumed; the final iteration feeds the odd trailing byte (high half) or 0. -/
def crcOuter (buf : List Nat) : Nat → Nat → Nat → Nat
  | 0, _, tmp => tmp
  | 1, _, tmp =>
      let val :=
        if buf.length % 2 = 1 then ((buf.getD (buf.length - 1) 0) <<< 8) &&& 0xffff
        else 0
      crc16steps tmp val
  | i + 2, ptr, tmp =>
      let val := (((buf.getD ptr 0) <<< 8) ||| ((buf.getD (ptr + 1) 0) &&& 0xff)) &&& 0xffff
      crcOuter buf (i + 1) (ptr + 2) (crc16steps tmp val)

/-- Function `crc(buffer)` from src/crc.ts. -/
def crc (buf : List Nat) : Nat :=
  let count := buf.length
  let tmp := (((buf.getD 0 0) <<< 8) ||| ((buf.getD 1 0) &&& 0xff)) &&& 0xffff
  if count > 2 then (crcOuter buf (count / 2) 2 tmp) &&& 0xffff
  else tmp &&& 0xffff

-- ─── Frame validity (src/si-protocol/SiMessage.ts, class SiMessage) ─────────

/-- Property `SiMessage.data`: bytes `1 .. 1 + (len - 4)` of the sequence
(command + length + payload, excluding CRC and ETX). -/
def messageData (seq : List Nat) : List Nat :=
  (seq.drop 1).take (seq.length - 4)

/-- Property `SiMessage.extractedCRC`: `((seq[len-3] << 8) & 0xffff) | (seq[len-2] & 0xff)`. -/
def extractedCRC (seq : List Nat) : Nat :=
  (((seq.getD (seq.length - 3) 0) <<< 8) &&& 0xffff) ||| ((seq.getD (seq.length - 2) 0) &&& 0xff)

/-- Property `SiMessage.computedCRC`: CRC over the data portion. -/
def computedCRC (seq : List Nat) : Nat :=
  crc (messageData seq)

/-- Property `SiMessage.valid`: starts with STX, ends with ETX, embedded CRC matches. -/
def validMessage (seq : List Nat) : Bool :=
  seq.getD 0 0 = STX && seq.getD (seq.length - 1) 0 = ETX
    && computedCRC seq = extractedCRC seq

-- ─── Time normalisation (src/si-protocol/SiDataFrame.ts) ────────────────────

/-- The `while (newTimestamp < baseTime) newTimestamp += stepTime` loop of
`advanceTimePast`, with an explicit fuel bound making potential divergence
visible: `none` means the loop did not finish within `fuel` iterations. -/
def advanceLoopFuel : Nat → Int → Int → Int → Option Int
  | 0, _, _, _ => none
  | fuel + 1, baseTime, stepTime, t =>
      if t < baseTime then advanceLoopFuel fuel baseTime stepTime (t + stepTime)
      else some t

/-- Total value of the while loop.  For `stepTime ≥ 1` the fuel
`(baseTime - t).toNat + 1` always suffices (each iteration increases `t` by at
least 1), as proved below; when the fuel runs out (possible only for
`stepTime ≤ 0`, where the source loops forever) the current value is
returned. -/
def advanceLoop (baseTime stepTime t : Int) : Int :=
  (advanceLoopFuel ((baseTime - t).toNat + 1) baseTime stepTime t).getD t

/-- Function `advanceTimePast(timestamp, refTime, stepTime)` from SiDataFrame.ts. -/
def advanceTimePast (timestamp refTime stepTime : Int) : Int :=
  if timestamp = NO_SI_TIME then NO_TIME
  else if refTime = NO_TIME then timestamp
  else advanceLoop (refTime - 3600000) stepTime timestamp

/-- Function `newRefTime(refTime, punchTime)` from SiDataFrame.ts. -/
def newRefTime (refTime punchTime : Int) : Int :=
  if punchTime ≠ NO_TIME then punchTime else refTime

-- ─── Startup configuration check (src/si-protocol/SiDriver.ts) ──────────────

def EXTENDED_PROTOCOL_MASK : Nat := 1
def HANDSHAKE_MODE_MASK : Nat := 4
def CONFIG_CHECK_MASK : Nat := EXTENDED_PROTOCOL_MASK ||| HANDSHAKE_MODE_MASK

def extendedProtocolError : String :=
  "Master station should be configured with extended protocol"

def handshakeModeError : String :=
  "Master station should be configured in handshake mode (no autosend)"

/-- The protocol-configuration check performed by `SiDriver.startup` on the
response to GET_PROTOCOL_CONFIGURATION: `cpcByte = configMsg.byteAt(6)`, then
the masked test choosing which fatal error (if any) to throw.  `none` means no
configuration error is raised. -/
def configError (configMsg : List Nat) : Option String :=
  let cpcByte := configMsg.getD 6 0
  if cpcByte &&& CONFIG_CHECK_MASK ≠ CONFIG_CHECK_MASK then
    if cpcByte &&& EXTENDED_PROTOCOL_MASK = 0 then some extendedProtocolError
    else some handshakeModeError
  else none

-- ─── Serial-byte accumulator (src/si-protocol/SiDriver.ts) ──────────────────

/-- The driver's framing state: the accumulator buffer contents (the first
`accSize` bytes of `accBuffer`) and the message queue, oldest first. -/
structure AccState where
  acc : List Nat
  queue : List (List Nat)
deriving DecidableEq, Repr

/-- Method `SiDriver.dispatchMessage`: push the whole accumulated buffer onto the
message queue and reset the accumulator. -/
def dispatchMessage (s : AccState) : AccState :=
  { acc := [], queue := s.queue ++ [s.acc] }

/-- Method `SiDriver.handleSerialData(chunk)`.  `stale` models
`now > lastDataTime + TIMEOUT_DELAY` (the 500 ms staleness reset).  The chunk
is appended clipped to the 139-byte buffer capacity; then a lone non-STX byte
dispatches immediately, and once `buf[2] + 6` bytes are present the whole
accumulator is dispatched. -/
def handleSerialData (s : AccState) (stale : Bool) (chunk : List Nat) : AccState :=
  let acc0 := if stale then [] else s.acc
  let acc := acc0 ++ chunk.take (139 - acc0.length)
  let s1 : AccState := { acc := acc, queue := s.queue }
  if acc.length = 1 ∧ acc.getD 0 0 ≠ STX then
    dispatchMessage s1
  else if 3 ≤ acc.length ∧ (acc.getD 2 0 &&& 0xff) + 6 ≤ acc.length then
    dispatchMessage s1
  else s1

/-- The GET_PROTOCOL_CONFIGURATION frame: a well-formed 8-byte frame used as
the concrete back-to-back chunk content. -/
def frameGPC : List Nat := [0x02, 0x83, 0x02, 0x74, 0x01, 0x04, 0x14, 0x03]

-- ─── Card data (src/si-protocol/SiDataFrame.ts) ─────────────────────────────

structure SiPunch where
  code : Nat
  timestampMs : Int
deriving DecidableEq, Repr, Inhabited

/-- Record `SiCardData` from SiDataFrame.ts.  `punchCount` is `Int` because the
source computes it as a byte minus 1, which is `-1` when the byte is 0.
The card number is kept numeric (the source stringifies it for display). -/
structure SiCardData where
  cardNumber : Nat
  cardSeries : String
  startTime : Int
  finishTime : Int
  checkTime : Int
  punchCount : Int
  punches : List SiPunch
deriving DecidableEq, Repr

/-- Function `byteAt(data, i)`: `data[i] & 0xff`, with out-of-range reads giving 0. -/
def byteAt (data : List Nat) (i : Nat) : Nat :=
  (data.getD i 0) &&& 0xff

/-- Function `wordAt(data, i)`: big-endian 16-bit word. -/
def wordAt (data : List Nat) (i : Nat) : Nat :=
  ((byteAt data i) <<< 8) ||| byteAt data (i + 1)

/-- Function `timestampAt(data, i)`: `1000 * wordAt(data, i)`. -/
def timestampAt (data : List Nat) (i : Nat) : Int :=
  1000 * (wordAt data i : Int)

def SI5_TIMED_PUNCHES : Nat := 30

/-- The timed-punch loop of `parseSi5` (`for i in 0..nbTimed`), carrying the
running reference time.  `i` is the current slot index and `k` the number of
slots still to read; returns the punches read and the final reference time. -/
def si5PunchLoop (data : List Nat) : Nat → Nat → Int → List SiPunch × Int
  | _, 0, refTime => ([], refTime)
  | i, k + 1, refTime =>
      let offset := 0x21 + (i / 5) * 0x10 + (i % 5) * 0x03
      let code := byteAt data offset
      let rawTime := timestampAt data (offset + 1)
      let punchTime := advanceTimePast rawTime refTime TWELVE_HOURS
      let rest := si5PunchLoop data (i + 1) k (newRefTime refTime punchTime)
      (⟨code, punchTime⟩ :: rest.1, rest.2)

/-- The non-timed-punch loop of `parseSi5` (codes beyond the 30 timed slots,
timestamp `NO_TIME`); `k` is the number of punches still to read. -/
def si5ExtraPunches (data : List Nat) : Nat → Nat → List SiPunch
  | _, 0 => []
  | i, k + 1 => ⟨byteAt data (0x20 + i * 0x10), NO_TIME⟩ :: si5ExtraPunches data (i + 1) k

/-- Function `parseSi5(message, zerohour)` from SiDataFrame.ts.  The message is the raw
byte sequence of the Card-5 response frame; the data frame is bytes 5..132. -/
def parseSi5 (message : List Nat) (zerohour : Int) : SiCardData :=
  let data := (message.drop 5).take 128
  let siNumber0 := wordAt data 0x04
  let cns := byteAt data 0x06
  let siNumber := if cns > 0x01 then siNumber0 + cns * 100000 else siNumber0
  let nbPunches : Int := (byteAt data 0x17 : Int) - 1
  let rawStart := timestampAt data 0x13
  let rawFinish := timestampAt data 0x15
  let rawCheck := timestampAt data 0x19
  let startTime := advanceTimePast rawStart zerohour TWELVE_HOURS
  let checkTime := advanceTimePast rawCheck zerohour TWELVE_HOURS
  let nbTimed := min nbPunches (SI5_TIMED_PUNCHES : Int)
  let loopOut := si5PunchLoop data 0 nbTimed.toNat (newRefTime zerohour startTime)
  let punches := loopOut.1 ++ si5ExtraPunches data 0 (nbPunches - (SI5_TIMED_PUNCHES : Int)).toNat
  let lastTimedRef :=
    if nbTimed > 0 then
      newRefTime (newRefTime zerohour startTime)
        ((punches.getD (nbTimed.toNat - 1) default).timestampMs)
    else newRefTime zerohour startTime
  let finishTime := advanceTimePast rawFinish lastTimedRef TWELVE_HOURS
  { cardNumber := siNumber
    cardSeries := "SiCard 5"
    startTime := startTime
    finishTime := finishTime
    checkTime := checkTime
    punchCount := nbPunches
    punches := punches }

-- ─── Claim-side definitions for the Card-5 finish time (C6) ─────────────────

/-- The raw finish time of a Card-5 response: word at data offset 0x15. -/
def si5RawFinish (message : List Nat) : Int :=
  timestampAt ((message.drop 5).take 128) 0x15

/-- Formalisation of the reference time named by the spec sentence
"`finish` = `advance(rawFinish, ref_after_last_timed_punch, 12h)`" read as the
running reference: seeded from `zerohour` and the resolved start time, then
updated at each timed punch whose resolved timestamp is not `NO_TIME` — i.e.
the final reference produced by the timed-punch loop. -/
def si5RunningRefAfterTimedPunches (message : List Nat) (zerohour : Int) : Int :=
  let data := (message.drop 5).take 128
  let nbPunches : Int := (byteAt data 0x17 : Int) - 1
  let startTime := advanceTimePast (timestampAt data 0x13) zerohour TWELVE_HOURS
  (si5PunchLoop data 0 (min nbPunches (SI5_TIMED_PUNCHES : Int)).toNat
    (newRefTime zerohour startTime)).2

/-- The reference the source actually uses for the finish time: seeded from
`zerohour` and the resolved start time, then updated from the timestamp of
the LAST timed punch alone (earlier punches are ignored; when the last timed
punch carries `NO_TIME` the seed is used even if an earlier punch resolved). -/
def si5LastTimedPunchRef (message : List Nat) (zerohour : Int) : Int :=
  let data := (message.drop 5).take 128
  let nbPunches : Int := (byteAt data 0x17 : Int) - 1
  let startTime := advanceTimePast (timestampAt data 0x13) zerohour TWELVE_HOURS
  let seed := newRefTime zerohour startTime
  let nbTimed := min nbPunches (SI5_TIMED_PUNCHES : Int)
  let timed := (si5PunchLoop data 0 nbTimed.toNat seed).1
  if nbTimed > 0 then newRefTime seed ((timed.getD (nbTimed.toNat - 1) default).timestampMs)
  else seed

/-- Concrete Card-5 response used as a counterexample for the finish-time
claim: raw start absent (0xEEEE), punch count byte 3 (two timed punches), the
first punch at 10:00:00 and the second with no time written (0xEEEE), raw
finish the word 0x0001 (1000 ms).  Message index = data offset + 5. -/
def si5FinishCounterMsg : List Nat :=
  ((((((((((((List.replicate 133 0).set 24 0xee).set 25 0xee).set 26 0x00).set 27
    0x01).set 28 3).set 38 31).set 39 0x8c).set 40 0xa0).set 41 32).set 42
    0xee).set 43 0xee)

-- ─── Course validator (src/course-validator/validator.ts) ───────────────────

structure Course where
  name : String
  controls : List Nat
  isInline : Bool
  useBoxStart : Bool
  fixedStartTimeMs : Option Int := none
deriving DecidableEq, Repr

structure ControlResult where
  expectedCode : Nat
  found : Bool
  timestampMs : Int
deriving DecidableEq, Repr, Inhabited

structure ValidationResult where
  course : Course
  controlResults : List ControlResult
  missingCount : Nat
  extraControls : List Nat
  allCorrect : Bool
deriving DecidableEq, Repr

/-- The Levenshtein matrix of `validateInline`: `levMatrix expected rel i j`
is `matrix[i][j]`, built with `matrix[i][0] = i`, `matrix[0][j] = j` and
`matrix[i+1][j+1] = min(1 + matrix[i+1][j], 1 + matrix[i][j+1],
cost + matrix[i][j])` where the substitution cost is 0 exactly on a code
match. -/
def levMatrix (expected : List Nat) (rel : List SiPunch) : Nat → Nat → Nat
  | i, 0 => i
  | 0, j + 1 => j + 1
  | i + 1, j + 1 =>
      let cost := if expected.getD i 0 = (rel.getD j default).code then 0 else 1
      min (1 + levMatrix expected rel (i + 1) j)
        (min (1 + levMatrix expected rel i (j + 1))
          (cost + levMatrix expected rel i j))
termination_by i j => i + j

/-- Helper `existsCodeFrom(code, punches, fromIndex)` from validator.ts. -/
def existsCodeFrom (code : Nat) (punches : List SiPunch) (fromIndex : Nat) : Bool :=
  (punches.drop fromIndex).any (fun p => p.code = code)

/-- Helper `findExtraControls(expected, punches)` from validator.ts: codes of the
punches whose code is not on the course, in original punch order. -/
def findExtraControls (expected : List Nat) : List SiPunch → List Nat
  | [] => []
  | p :: ps =>
      if expected.contains p.code then findExtraControls expected ps
      else p.code :: findExtraControls expected ps

/-- The forward trace of `validateInline` (EasyGec's `okPm`), from state
`(i, j)`: match when the diagonal cell is unchanged; miss when the expected
code no longer occurs ahead; miss without consuming the punch when skipping
is worse than `total`; otherwise skip the punch.  When the punch list is
exhausted (or `i` reaches the end) the remaining expected controls are
misses. -/
def okPm (expected : List Nat) (rel : List SiPunch) (total : Nat) (i j : Nat) :
    List ControlResult :=
  if h : i < expected.length ∧ j < rel.length then
    if levMatrix expected rel (i + 1) (j + 1) = levMatrix expected rel i j then
      ⟨expected.getD i 0, true, (rel.getD j default).timestampMs⟩ ::
        okPm expected rel total (i + 1) (j + 1)
    else if ¬ existsCodeFrom (expected.getD i 0) rel (j + 1) then
      ⟨expected.getD i 0, false, NO_TIME⟩ :: okPm expected rel total (i + 1) j
    else if levMatrix expected rel i (j + 1) > total then
      ⟨expected.getD i 0, false, NO_TIME⟩ :: okPm expected rel total (i + 1) j
    else
      okPm expected rel total i (j + 1)
  else
    (expected.drop i).map (fun c => ⟨c, false, NO_TIME⟩)
termination_by (expected.length - i) + (rel.length - j)
decreasing_by all_goals omega

/-- Function `validateInline(course, punches)` from validator.ts. -/
def validateInline (course : Course) (punches : List SiPunch) : ValidationResult :=
  let expected := course.controls
  let relevantPunches := punches.filter (fun p => expected.contains p.code)
  let total := levMatrix expected relevantPunches expected.length relevantPunches.length
  let controlResults := okPm expected relevantPunches total 0 0
  let extraControls := findExtraControls expected punches
  let missingCount := (controlResults.filter (fun r => !r.found)).length
  { course := course
    controlResults := controlResults
    missingCount := missingCount
    extraControls := extraControls
    allCorrect := missingCount = 0 }

/-- The inner scan of `validateScoreO`: index of the first unused punch with
the given code, starting the scan at index `i`. -/
def firstUnusedFrom (punches : List SiPunch) (used : List Bool) (code : Nat) (i : Nat) :
    Option Nat :=
  if h : i < punches.length then
    if used.getD i false = false ∧ (punches.getD i default).code = code then some i
    else firstUnusedFrom punches used code (i + 1)
  else none
termination_by punches.length - i
decreasing_by omega

/-- The `expected.map(...)` of `validateScoreO`, threading the `used` flags:
returns the control results together with the final flags. -/
def scoreOMap (punches : List SiPunch) : List Nat → List Bool →
    List ControlResult × List Bool
  | [], used => ([], used)
  | c :: cs, used =>
      match firstUnusedFrom punches used c 0 with
      | some idx =>
          let rest := scoreOMap punches cs (used.set idx true)
          (⟨c, true, (punches.getD idx default).timestampMs⟩ :: rest.1, rest.2)
      | none =>
          let rest := scoreOMap punches cs used
          (⟨c, false, NO_TIME⟩ :: rest.1, rest.2)

/-- Function `validateScoreO(course, punches)` from validator.ts. -/
def validateScoreO (course : Course) (punches : List SiPunch) : ValidationResult :=
  let expected := course.controls
  let controlResults := (scoreOMap punches expected (List.replicate punches.length false)).1
  let extraControls := findExtraControls expected punches
  let missingCount := (controlResults.filter (fun r => !r.found)).length
  { course := course
    controlResults := controlResults
    missingCount := missingCount
    extraControls := extraControls
    allCorrect := missingCount = 0 }


-- ════════════════════════ Lemmas and theorems ═══════════════════════════════

-- ─── The while loop of advanceTimePast ──────────────────────────────────────

/-- More fuel never changes a result the loop already reached. -/
theorem advanceLoopFuel_mono (b s : Int) :
    ∀ (n m : Nat) (t r : Int), n ≤ m →
      advanceLoopFuel n b s t = some r → advanceLoopFuel m b s t = some r := by
  intro n
  induction n with
  | zero => intro m t r _ h; simp [advanceLoopFuel] at h
  | succ k ih =>
    intro m t r hnm h
    obtain ⟨m', rfl⟩ : ∃ m', m = m' + 1 := ⟨m - 1, by omega⟩
    rw [advanceLoopFuel] at h ⊢
    by_cases hg : t < b
    · rw [if_pos hg] at h ⊢
      exact ih m' (t + s) r (by omega) h
    · rwa [if_neg hg] at h ⊢

/-- Whatever the loop returns failed the guard and is `t` plus a
non-negative number of steps. -/
theorem advanceLoopFuel_sound (b s : Int) :
    ∀ (n : Nat) (t r : Int), advanceLoopFuel n b s t = some r →
      ¬ r < b ∧ ∃ k : Nat, r = t + s * k := by
  intro n
  induction n with
  | zero => intro t r h; simp [advanceLoopFuel] at h
  | succ m ih =>
    intro t r h
    rw [advanceLoopFuel] at h
    by_cases hg : t < b
    · rw [if_pos hg] at h
      obtain ⟨h1, k, hk⟩ := ih (t + s) r h
      exact ⟨h1, k + 1, by rw [hk]; push_cast; ring⟩
    · rw [if_neg hg] at h
      obtain rfl : t = r := by simpa using h
      exact ⟨hg, 0, by ring⟩

/-- For a strictly positive step, fuel `(b - t).toNat + 1` always suffices. -/
theorem advanceLoopFuel_complete (b s : Int) (hs : 0 < s) :
    ∀ (N : Nat) (t : Int), (b - t).toNat ≤ N →
      ∃ r, advanceLoopFuel (N + 1) b s t = some r := by
  intro N
  induction N with
  | zero =>
    intro t h
    rw [advanceLoopFuel]
    have hg : ¬ t < b := by omega
    exact ⟨t, by rw [if_neg hg]⟩
  | succ N ih =>
    intro t h
    rw [advanceLoopFuel]
    by_cases hg : t < b
    · rw [if_pos hg]
      exact ih (t + s) (by omega)
    · exact ⟨t, by rw [if_neg hg]⟩

/-- If the loop converges with any fuel at all, the default fuel
`(b - t).toNat + 1` converges to the same value (the loop is deterministic
and, when it runs at least one iteration and exits, the step is positive). -/
theorem advanceLoopFuel_default (b s : Int) :
    ∀ (n : Nat) (t r : Int), advanceLoopFuel n b s t = some r →
      advanceLoopFuel ((b - t).toNat + 1) b s t = some r := by
  intro n
  induction n with
  | zero => intro t r h; simp [advanceLoopFuel] at h
  | succ m ih =>
    intro t r h
    rw [advanceLoopFuel] at h
    by_cases hg : t < b
    · rw [if_pos hg] at h
      have hsound := advanceLoopFuel_sound b s m (t + s) r h
      obtain ⟨hrb, k, hk⟩ := hsound
      have hs : 0 < s := by
        by_contra hs
        push_neg at hs
        have hks : s * (k : Int) ≤ 0 :=
          mul_nonpos_of_nonpos_of_nonneg hs (by positivity)
        exact hrb (by rw [hk]; linarith)
      have hrec := ih (t + s) r h
      rw [advanceLoopFuel]
      rw [if_pos hg]
      exact advanceLoopFuel_mono b s ((b - (t + s)).toNat + 1) ((b - t).toNat) (t + s) r
        (by omega) hrec
    · rw [if_neg hg] at h
      rw [advanceLoopFuel, if_neg hg]
      exact h

/-- The total loop value agrees with any converging fuelled run. -/
theorem advanceLoop_eq_of_fuel (b s t r : Int) (n : Nat)
    (h : advanceLoopFuel n b s t = some r) : advanceLoop b s t = r := by
  rw [advanceLoop, advanceLoopFuel_default b s n t r h, Option.getD_some]

/-- C5: `advanceTimePast` maps `NO_SI_TIME` to `NO_TIME`; with reference
`NO_TIME` it returns the raw value unchanged; otherwise, for positive step,
the result is at least `ref - 3_600_000` and differs from the raw value by a
non-negative multiple of the step. -/
theorem advanceTimePast_spec (raw ref step : Int) (hstep : 0 < step) :
    (raw = NO_SI_TIME → advanceTimePast raw ref step = NO_TIME) ∧
    (raw ≠ NO_SI_TIME → ref = NO_TIME → advanceTimePast raw ref step = raw) ∧
    (raw ≠ NO_SI_TIME → ref ≠ NO_TIME →
      ref - 3600000 ≤ advanceTimePast raw ref step ∧
      ∃ k : Nat, advanceTimePast raw ref step - raw = step * k) := by
  refine ⟨fun h => by simp [advanceTimePast, h], fun h1 h2 => by simp [advanceTimePast, h1, h2],
    fun h1 h2 => ?_⟩
  obtain ⟨r, hr⟩ := advanceLoopFuel_complete (ref - 3600000) step hstep
    ((ref - 3600000 - raw).toNat) raw le_rfl
  obtain ⟨hge, k, hk⟩ := advanceLoopFuel_sound (ref - 3600000) step _ raw r hr
  have heq : advanceTimePast raw ref step = r := by
    rw [advanceTimePast, if_neg h1, if_neg h2]
    exact advanceLoop_eq_of_fuel _ _ _ _ _ hr
  rw [heq]
  exact ⟨by omega, k, by rw [hk]; ring⟩

/-- Witness for C5 at `raw = 1000`, `ref = 36000000`, `step = TWELVE_HOURS`. -/
theorem advanceTimePast_spec_witness :
    ((1000 : Int) = NO_SI_TIME → advanceTimePast 1000 36000000 TWELVE_HOURS = NO_TIME) ∧
    ((1000 : Int) ≠ NO_SI_TIME → (36000000 : Int) = NO_TIME →
      advanceTimePast 1000 36000000 TWELVE_HOURS = 1000) ∧
    ((1000 : Int) ≠ NO_SI_TIME → (36000000 : Int) ≠ NO_TIME →
      (36000000 : Int) - 3600000 ≤ advanceTimePast 1000 36000000 TWELVE_HOURS ∧
      ∃ k : Nat, advanceTimePast 1000 36000000 TWELVE_HOURS - 1000 = TWELVE_HOURS * k) :=
  advanceTimePast_spec 1000 36000000 TWELVE_HOURS (by decide)

/-- C10: for a strictly positive step the while loop of `advanceTimePast`
terminates — the fuelled semantics of the loop converges (to the total
model's value) within some finite number of iterations. -/
theorem advanceLoop_terminates (baseTime stepTime t : Int) (h : 0 < stepTime) :
    ∃ n : Nat, advanceLoopFuel n baseTime stepTime t = some (advanceLoop baseTime stepTime t) := by
  obtain ⟨r, hr⟩ := advanceLoopFuel_complete baseTime stepTime h ((baseTime - t).toNat) t le_rfl
  exact ⟨(baseTime - t).toNat + 1, by rw [hr, advanceLoop_eq_of_fuel _ _ _ _ _ hr]⟩

/-- Witness for C10 at `baseTime = 32400000`, `stepTime = TWELVE_HOURS`,
`t = 1000`. -/
theorem advanceLoop_terminates_witness :
    ∃ n : Nat, advanceLoopFuel n 32400000 TWELVE_HOURS 1000 =
      some (advanceLoop 32400000 TWELVE_HOURS 1000) :=
  advanceLoop_terminates 32400000 TWELVE_HOURS 1000 (by decide)

-- ─── CRC claims ─────────────────────────────────────────────────────────────

/-- C9: the SPORTident reference vector CRCs to 0x2C12. -/
theorem crc_reference_vector :
    crc [0x53, 0x00, 0x05, 0x01, 0x0f, 0xb5, 0x00, 0x00, 0x1e, 0x08] = 0x2c12 := by
  decide

/-- C3 counterexample: the buffer `[0x53]` has length < 2 but its CRC is
`0x5300`, not 0 (the source has no short-buffer early return; the second,
out-of-range byte reads as 0 and the first byte lands in the high half). -/
theorem crc_short_counterexample :
    ([0x53] : List Nat).length < 2 ∧ crc [0x53] ≠ 0 := by decide

/-- C3 amended: for a buffer of length < 2 the CRC is the first byte (0 if
absent) shifted into the high half: `(buf[0] << 8) & 0xffff` — which is 0
only when the buffer is empty or its single byte is 0. -/
theorem crc_short (buf : List Nat) (h : buf.length < 2) :
    crc buf = ((buf.getD 0 0) <<< 8) &&& 0xffff := by
  match buf, h with
  | [], _ => decide
  | [a], _ => simp [crc, List.getD, Nat.and_assoc, Nat.and_self]

/-- Witness for the amended C3 at `buf = [0x53]`. -/
theorem crc_short_witness :
    ([0x53] : List Nat).length < 2 ∧
    crc [0x53] = ((([0x53] : List Nat).getD 0 0) <<< 8) &&& 0xffff :=
  ⟨by decide, crc_short [0x53] (by decide)⟩

-- ─── Startup configuration check (C8) ───────────────────────────────────────

/-- Mask arithmetic: `b &&& 5 = 5` exactly when both bit 0 and bit 2 of `b` are set. -/
theorem and_five_eq_five_iff (b : Nat) :
    b &&& 5 = 5 ↔ (b &&& 1 ≠ 0 ∧ b &&& 4 ≠ 0) := by
  have h51 : (5 : Nat) &&& 1 = 1 := by decide
  have h54 : (5 : Nat) &&& 4 = 4 := by decide
  have e1 : (b &&& 5) &&& 1 = b &&& 1 := by rw [Nat.and_assoc, h51]
  have e4 : (b &&& 5) &&& 4 = b &&& 4 := by rw [Nat.and_assoc, h54]
  have hle : b &&& 5 ≤ 5 := Nat.and_le_right
  rw [← e1, ← e4]
  generalize b &&& 5 = c at hle ⊢
  interval_cases c <;> decide

/-- C8: the protocol-configuration check fails with the extended-protocol
message when bit 0x01 of the byte at index 6 is clear, with the handshake
message when bit 0x01 is set but bit 0x04 is clear, and raises no error when
both bits are set. -/
theorem startup_config_check (configMsg : List Nat) :
    configError configMsg =
      (if configMsg.getD 6 0 &&& 0x01 = 0 then some extendedProtocolError
       else if configMsg.getD 6 0 &&& 0x04 = 0 then some handshakeModeError
       else none) := by
  have hmask : CONFIG_CHECK_MASK = 5 := by decide
  have hext : EXTENDED_PROTOCOL_MASK = 1 := by decide
  simp only [configError, hmask, hext]
  set b := configMsg.getD 6 0 with hb
  by_cases h1 : b &&& 1 = 0
  · have h5 : b &&& 5 ≠ 5 := fun h => ((and_five_eq_five_iff b).mp h).1 h1
    rw [if_pos h5, if_pos h1, if_pos h1]
  · by_cases h4 : b &&& 4 = 0
    · have h5 : b &&& 5 ≠ 5 := fun h => ((and_five_eq_five_iff b).mp h).2 h4
      rw [if_pos h5, if_neg h1, if_neg h1, if_pos h4]
    · have h5 : ¬ (b &&& 5 ≠ 5) := fun h => h ((and_five_eq_five_iff b).mpr ⟨h1, h4⟩)
      rw [if_neg h5, if_neg h1, if_neg h4]

-- ─── Serial-byte accumulator (C4) ───────────────────────────────────────────

/-- C4 counterexample: feeding one chunk holding two complete well-formed
frames back-to-back, from an empty accumulator, does not enqueue the two
frames — the whole chunk is dispatched as a single queue entry. -/
theorem accumulator_two_frames_counterexample :
    validMessage frameGPC = true ∧
    frameGPC.length = frameGPC.getD 2 0 + 6 ∧
    (handleSerialData ⟨[], []⟩ false (frameGPC ++ frameGPC)).queue ≠ [frameGPC, frameGPC] ∧
    (handleSerialData ⟨[], []⟩ false (frameGPC ++ frameGPC)).queue = [frameGPC ++ frameGPC] := by
  decide

/-- C4 amended: from an empty accumulator, a single chunk containing two
complete well-formed frames back-to-back (fitting the 139-byte buffer) causes
exactly one dispatch: one message, the concatenation of the two frames, is
pushed onto the queue. -/
theorem accumulator_two_frames (stale : Bool) (f1 f2 : List Nat)
    (hv1 : validMessage f1 = true) (hv2 : validMessage f2 = true)
    (hl1 : f1.length = f1.getD 2 0 + 6) (hl2 : f2.length = f2.getD 2 0 + 6)
    (hcap : f1.length + f2.length ≤ 139) :
    handleSerialData ⟨[], []⟩ stale (f1 ++ f2) = ⟨[], [f1 ++ f2]⟩ := by
  rw [handleSerialData]
  have hacc0 : (if stale then ([] : List Nat) else (AccState.mk [] []).acc) = [] := by
    cases stale <;> rfl
  rw [hacc0]
  have htake : (f1 ++ f2).take (139 - ([] : List Nat).length) = f1 ++ f2 := by
    apply List.take_of_length_le
    simpa using hcap
  rw [List.nil_append, htake]
  have hlen : (f1 ++ f2).length = f1.length + f2.length := List.length_append f1 f2
  have h1 : ¬ ((f1 ++ f2).length = 1 ∧ (f1 ++ f2).getD 0 0 ≠ STX) := by
    rintro ⟨h, -⟩
    rw [hlen] at h
    omega
  rw [if_neg h1]
  have hget2 : (f1 ++ f2).getD 2 0 = f1.getD 2 0 :=
    List.getD_append f1 f2 0 2 (by omega)
  have hbyte : f1.getD 2 0 &&& 0xff = f1.getD 2 0 := by
    rw [Nat.and_pow_two_sub_one_eq_mod (f1.getD 2 0) 8]
    exact Nat.mod_eq_of_lt (by omega)
  have h2 : 3 ≤ (f1 ++ f2).length ∧ ((f1 ++ f2).getD 2 0 &&& 0xff) + 6 ≤ (f1 ++ f2).length := by
    rw [hlen, hget2, hbyte]
    omega
  rw [if_pos h2]
  rfl

/-- Witness for the amended C4: two GET_PROTOCOL_CONFIGURATION frames in one
chunk yield a single queue entry holding both frames' bytes. -/
theorem accumulator_two_frames_witness :
    handleSerialData ⟨[], []⟩ false (frameGPC ++ frameGPC) = ⟨[], [frameGPC ++ frameGPC]⟩ :=
  accumulator_two_frames false frameGPC frameGPC (by decide) (by decide) (by decide)
    (by decide) (by decide)

-- ─── Card-5 decoder: punch count (C2) ───────────────────────────────────────

/-- The timed-punch loop returns exactly as many punches as it is asked for. -/
theorem si5PunchLoop_length (data : List Nat) :
    ∀ (k i : Nat) (refTime : Int), (si5PunchLoop data i k refTime).1.length = k := by
  intro k
  induction k with
  | zero => intro i refTime; rfl
  | succ k ih =>
    intro i refTime
    rw [si5PunchLoop]
    simpa using ih (i + 1) _

/-- The non-timed-punch loop returns exactly as many punches as asked for. -/
theorem si5ExtraPunches_length (data : List Nat) :
    ∀ (k i : Nat), (si5ExtraPunches data i k).length = k := by
  intro k
  induction k with
  | zero => intro i; rfl
  | succ k ih =>
    intro i
    rw [si5ExtraPunches]
    simpa using ih (i + 1)

/-- C2 counterexample: on an all-zero Card-5 response the count byte at data
offset 0x17 is 0, so `punchCount = -1` while `punches` is empty — the lengths
differ. -/
theorem parseSi5_punchCount_counterexample :
    ((parseSi5 (List.replicate 133 0) 0).punches.length : Int) ≠
      (parseSi5 (List.replicate 133 0) 0).punchCount := by
  decide

/-- C2 amended: the number of decoded punches is `max(punchCount, 0)` (as a
natural number, `punchCount.toNat`); it equals `punchCount` exactly when the
byte at data offset 0x17 is at least 1. -/
theorem parseSi5_punches_length (message : List Nat) (zerohour : Int) :
    (parseSi5 message zerohour).punches.length =
      ((parseSi5 message zerohour).punchCount).toNat := by
  simp only [parseSi5]
  rw [List.length_append, si5PunchLoop_length, si5ExtraPunches_length]
  have hb : (0 : Int) ≤ (byteAt ((message.drop 5).take 128) 0x17 : Int) := Int.ofNat_nonneg _
  omega

-- ─── Card-5 decoder: finish time (C6) ───────────────────────────────────────

/-- C6 counterexample: on `si5FinishCounterMsg` (first punch resolved at
10:00:00, last timed punch without a time) the decoder's finish time is 1000,
but advancing the raw finish past the running reference (36000000) would give
43201000 — the code does not use the running reference. -/
theorem parseSi5_finishTime_counterexample :
    (parseSi5 si5FinishCounterMsg 0).finishTime ≠
      advanceTimePast (si5RawFinish si5FinishCounterMsg)
        (si5RunningRefAfterTimedPunches si5FinishCounterMsg 0) TWELVE_HOURS := by
  decide

/-- C6 amended: the finish time is `advance_time_past(rawFinish, R,
TWELVE_HOURS)` where `R` is derived from the seed (zero hour / start time)
and the timestamp of the last timed punch only: `R = newRefTime(seed,
lastTimedPunchTime)` when there is a timed punch, else the seed itself. -/
theorem parseSi5_finishTime (message : List Nat) (zerohour : Int) :
    (parseSi5 message zerohour).finishTime =
      advanceTimePast (si5RawFinish message) (si5LastTimedPunchRef message zerohour)
        TWELVE_HOURS := by
  simp only [parseSi5, si5RawFinish, si5LastTimedPunchRef]
  congr 1
  by_cases h :
    min ((byteAt ((message.drop 5).take 128) 0x17 : Int) - 1) (SI5_TIMED_PUNCHES : Int) > 0
  · rw [if_pos h, if_pos h]
    congr 2
    exact List.getD_append _ _ _ _ (by rw [si5PunchLoop_length]; omega)
  · rw [if_neg h, if_neg h]

-- ─── Validator invariants (C1) ──────────────────────────────────────────────

/-- The trace emits exactly one control result per expected control: from
state `(i, j)` it produces `expected.length - i` entries. -/
theorem okPm_length (expected : List Nat) (rel : List SiPunch) (total : Nat) :
    ∀ i j, (okPm expected rel total i j).length = expected.length - i := by
  intro i j
  induction i, j using okPm.induct expected rel total with
  | case1 i j hguard hmatch ih =>
    rw [okPm, dif_pos hguard, if_pos hmatch]
    simp only [List.length_cons, ih]
    omega
  | case2 i j hguard hmatch hexists ih =>
    rw [okPm, dif_pos hguard, if_neg hmatch, if_pos hexists]
    simp only [List.length_cons, ih]
    omega
  | case3 i j hguard hmatch hexists hgt ih =>
    rw [okPm, dif_pos hguard, if_neg hmatch, if_neg hexists, if_pos hgt]
    simp only [List.length_cons, ih]
    omega
  | case4 i j hguard hmatch hexists hgt ih =>
    rw [okPm, dif_pos hguard, if_neg hmatch, if_neg hexists, if_neg hgt]
    exact ih
  | case5 i j hguard =>
    rw [okPm, dif_neg hguard]
    simp

/-- Helper `findExtraControls` is the filter-and-project of the punch list. -/
theorem findExtraControls_eq (expected : List Nat) :
    ∀ punches : List SiPunch,
      findExtraControls expected punches =
        (punches.filter (fun p => !(expected.contains p.code))).map SiPunch.code := by
  intro punches
  induction punches with
  | nil => rfl
  | cons p ps ih =>
    rw [findExtraControls]
    by_cases h : expected.contains p.code
    · rw [if_pos h]
      have h' : p.code ∈ expected := by simpa using h
      simp [List.filter_cons, h', ih]
    · rw [if_neg h]
      have h' : p.code ∉ expected := by simpa using h
      simp [List.filter_cons, h', ih]

/-- The score-O scan produces one control result per expected control. -/
theorem scoreOMap_length (punches : List SiPunch) :
    ∀ (es : List Nat) (used : List Bool),
      (scoreOMap punches es used).1.length = es.length := by
  intro es
  induction es with
  | nil => intro used; rfl
  | cons c cs ih =>
    intro used
    simp only [scoreOMap]
    rcases h : firstUnusedFrom punches used c 0 with _ | idx <;> simp [h, ih]

/-- C1: for both validators, the control-result list has one entry per course
control, `missingCount` counts the not-found entries, `allCorrect` holds
exactly when nothing is missing, and `extraControls` is the codes of the
punches whose code is not on the course, in original punch order. -/
theorem validation_result_invariants (course : Course) (punches : List SiPunch) :
    ((validateInline course punches).controlResults.length = course.controls.length ∧
     (validateInline course punches).missingCount =
       (validateInline course punches).controlResults.countP (fun r => !r.found) ∧
     ((validateInline course punches).allCorrect = true ↔
       (validateInline course punches).missingCount = 0) ∧
     (validateInline course punches).extraControls =
       (punches.filter (fun p => !(course.controls.contains p.code))).map SiPunch.code) ∧
    ((validateScoreO course punches).controlResults.length = course.controls.length ∧
     (validateScoreO course punches).missingCount =
       (validateScoreO course punches).controlResults.countP (fun r => !r.found) ∧
     ((validateScoreO course punches).allCorrect = true ↔
       (validateScoreO course punches).missingCount = 0) ∧
     (validateScoreO course punches).extraControls =
       (punches.filter (fun p => !(course.controls.contains p.code))).map SiPunch.code) := by
  refine ⟨⟨?_, ?_, ?_, ?_⟩, ?_, ?_, ?_, ?_⟩
  · simp only [validateInline]
    rw [okPm_length]
    omega
  · simp only [validateInline]
    rw [List.countP_eq_length_filter]
  · simp only [validateInline]
    simp
  · simp only [validateInline]
    exact findExtraControls_eq course.controls punches
  · simp only [validateScoreO]
    rw [scoreOMap_length]
  · simp only [validateScoreO]
    rw [List.countP_eq_length_filter]
  · simp only [validateScoreO]
    simp
  · simp only [validateScoreO]
    exact findExtraControls_eq course.controls punches

-- ─── Inline validation of a course against its own codes (C7) ───────────────

/-- When the filtered punches carry exactly the expected codes in order, the
whole diagonal of the Levenshtein matrix is zero. -/
theorem levMatrix_diag (expected : List Nat) (rel : List SiPunch)
    (hcodes : rel.map SiPunch.code = expected) :
    ∀ i, i ≤ expected.length → levMatrix expected rel i i = 0 := by
  have hlen : rel.length = expected.length := by rw [← hcodes, List.length_map]
  intro i
  induction i with
  | zero => intro _; simp [levMatrix]
  | succ i ih =>
    intro h
    have hi : i < expected.length := by omega
    have hcost : expected.getD i 0 = (rel.getD i default).code := by
      have hi' : i < rel.length := by omega
      rw [← hcodes, List.getD_eq_getElem _ _ (by simpa using hi'), List.getElem_map,
        List.getD_eq_getElem _ _ hi']
    simp only [levMatrix]
    rw [hcost]
    simp only [eq_self_iff_true, if_true]
    rw [ih (by omega)]
    omega

/-- When the filtered punches carry exactly the expected codes in order, the
trace matches every control with the corresponding punch. -/
theorem okPm_diag (expected : List Nat) (rel : List SiPunch)
    (hcodes : rel.map SiPunch.code = expected) (total : Nat) :
    ∀ k i, i + k = expected.length →
      okPm expected rel total i i =
        List.zipWith (fun c p => ⟨c, true, p.timestampMs⟩)
          (expected.drop i) (rel.drop i) := by
  have hlen : rel.length = expected.length := by rw [← hcodes, List.length_map]
  intro k
  induction k with
  | zero =>
    intro i h
    rw [okPm, dif_neg (by omega)]
    rw [List.drop_eq_nil_of_le (by omega), List.drop_eq_nil_of_le (by omega)]
    rfl
  | succ k ih =>
    intro i h
    have hi : i < expected.length := by omega
    have hii : i < rel.length := by omega
    have hmatch : levMatrix expected rel (i + 1) (i + 1) = levMatrix expected rel i i := by
      rw [levMatrix_diag expected rel hcodes (i + 1) (by omega),
        levMatrix_diag expected rel hcodes i (by omega)]
    rw [okPm, dif_pos ⟨hi, hii⟩, if_pos hmatch, ih (i + 1) (by omega)]
    have he : expected.drop i = expected.getD i 0 :: expected.drop (i + 1) := by
      rw [List.getD_eq_getElem _ _ hi]
      exact List.drop_eq_getElem_cons hi
    have hr : rel.drop i = rel.getD i default :: rel.drop (i + 1) := by
      rw [List.getD_eq_getElem _ _ hii]
      exact List.drop_eq_getElem_cons hii
    rw [he, hr]
    rfl

/-- All-found control results contain nothing for the missing-filter. -/
theorem zipWith_allFound_filter :
    ∀ (es : List Nat) (ps : List SiPunch),
      (List.zipWith (fun c p => ControlResult.mk c true p.timestampMs) es ps).filter
        (fun r => !r.found) = [] := by
  intro es
  induction es with
  | nil => intro ps; rfl
  | cons c cs ih =>
    intro ps
    cases ps with
    | nil => rfl
    | cons p ps => simp [List.filter_cons, ih]

/-- Indexing an all-found zip of controls and punches projects the punch
timestamp. -/
theorem zipWith_getD_timestamp :
    ∀ (es : List Nat) (ps : List SiPunch) (i : Nat), i < es.length → i < ps.length →
      ((List.zipWith (fun c p => ControlResult.mk c true p.timestampMs) es ps).getD i
        default).timestampMs = (ps.getD i default).timestampMs := by
  intro es
  induction es with
  | nil => intro ps i h _; simp at h
  | cons c cs ih =>
    intro ps i h1 h2
    cases ps with
    | nil => simp at h2
    | cons p ps =>
      cases i with
      | zero => rfl
      | succ i => simpa using ih ps i (by simpa using h1) (by simpa using h2)

/-- C7: validating an inline course against punches that carry exactly the
course's codes in order yields all-correct, no extras, and the punch
timestamps preserved at every position. -/
theorem validateInline_self_course (course : Course) (punches : List SiPunch)
    (hne : course.controls ≠ [])
    (hcodes : punches.map SiPunch.code = course.controls) :
    (validateInline course punches).allCorrect = true ∧
    (validateInline course punches).extraControls = [] ∧
    ∀ i, i < course.controls.length →
      ((validateInline course punches).controlResults.getD i default).timestampMs =
        (punches.getD i default).timestampMs := by
  have hlen : punches.length = course.controls.length := by
    rw [← hcodes, List.length_map]
  have hrel : punches.filter (fun p => course.controls.contains p.code) = punches := by
    rw [List.filter_eq_self]
    intro p hp
    have hm : p.code ∈ course.controls := by
      rw [← hcodes]
      exact List.mem_map_of_mem _ hp
    simpa using hm
  have hdiag := okPm_diag course.controls punches hcodes
    (levMatrix course.controls punches course.controls.length punches.length)
    course.controls.length 0 (by omega)
  rw [List.drop_zero, List.drop_zero] at hdiag
  refine ⟨?_, ?_, ?_⟩
  · simp only [validateInline]
    rw [hrel, hdiag, zipWith_allFound_filter]
    rfl
  · simp only [validateInline]
    rw [findExtraControls_eq]
    have hnil : punches.filter (fun p => !(course.controls.contains p.code)) = [] := by
      rw [List.filter_eq_nil_iff]
      intro p hp
      have hm : p.code ∈ course.controls := by
        rw [← hcodes]
        exact List.mem_map_of_mem _ hp
      simpa using hm
    rw [hnil]
    rfl
  · intro i hi
    have hres : (validateInline course punches).controlResults =
        List.zipWith (fun c p => ControlResult.mk c true p.timestampMs)
          course.controls punches := by
      simp only [validateInline]
      rw [hrel, hdiag]
    rw [hres]
    exact zipWith_getD_timestamp course.controls punches i hi (by omega)

/-- Witness for C7: the two-control course `[31, 32]` validated against
punches `31@5, 32@9`. -/
theorem validateInline_self_course_witness :
    (validateInline ⟨"W", [31, 32], true, true, none⟩
        [⟨31, 5⟩, ⟨32, 9⟩]).allCorrect = true ∧
    (validateInline ⟨"W", [31, 32], true, true, none⟩
        [⟨31, 5⟩, ⟨32, 9⟩]).extraControls = [] ∧
    ∀ i, i < (Course.mk "W" [31, 32] true true none).controls.length →
      ((validateInline ⟨"W", [31, 32], true, true, none⟩
          [⟨31, 5⟩, ⟨32, 9⟩]).controlResults.getD i default).timestampMs =
        (([⟨31, 5⟩, ⟨32, 9⟩] : List SiPunch).getD i default).timestampMs :=
  validateInline_self_course ⟨"W", [31, 32], true, true, none⟩ [⟨31, 5⟩, ⟨32, 9⟩]
    (by decide) (by decide)
